import Mathlib

/-!
Shallow embedding of `apod/app.py` (the APOD micro-service) and proofs about
its specification claims.

Conventions of the embedding:
* Calendar dates are represented by their proleptic Gregorian ordinals
  (`date.toordinal()` in Python); `toOrdinal y m d` computes the ordinal of a
  `(year, month, day)` triple exactly as CPython's `datetime` does.  Python
  compares `date` objects and their `isoformat()` strings; both orders agree
  with the ordinal order, and `isoformat` is injective on dates, so string
  comparison of isoformats is modelled by ordinal equality.
* Python exceptions become the `PyErr` error type threaded through `Except`.
* Python strings are Lean `String`s; the idiosyncratic Python primitives the
  source uses (`str.replace`, `str.strip(chars)`, `str.split(sep)`) are
  re-implemented on `List Char` with Python's semantics (`strip` removes a
  *character set* from both ends, not a literal prefix/suffix).
* The network boundary (`requests.get` + `BeautifulSoup`) is an environment
  function `pages : Nat → Except PyErr Soup` giving the parsed page for a
  date ordinal; `Soup` records exactly the features of the parsed document
  that `app.py` inspects.
-/

/-- Python exception values, as far as the source distinguishes them. -/
inductive PyErr : Type where
  | typeError : PyErr
  | attributeError : PyErr
  | keyError : PyErr
  | indexError : PyErr
  | nameError : PyErr
  | valueError : String → PyErr
  | fetchError : PyErr
  | wrapped : PyErr → PyErr
deriving DecidableEq, Repr

/-! ### Python string primitives (on `List Char`) -/

/-- Substring test: `isSubOfL pat s = true` iff `pat` occurs contiguously in
`s` (Python's `pat in s`). -/
def isSubOfL (pat : List Char) : List Char → Bool
  | [] => pat.isEmpty
  | c :: rest => pat.isPrefixOf (c :: rest) || isSubOfL pat rest

/-- Fuel-driven worker for `pyReplaceL` (structural recursion on the fuel so
that the kernel can evaluate it; one unit of fuel is spent per scanned
position, and the caller provides `s.length`, which always suffices). -/
def pyReplaceFuel : List Char → List Char → Nat → List Char → List Char
  | _, _, _, [] => []
  | _, _, 0, s => s
  | [], rep, Nat.succ fuel, c :: rest => c :: pyReplaceFuel [] rep fuel rest
  | p :: ps, rep, Nat.succ fuel, c :: rest =>
    if (p :: ps).isPrefixOf (c :: rest) then
      rep ++ pyReplaceFuel (p :: ps) rep fuel (rest.drop ps.length)
    else
      c :: pyReplaceFuel (p :: ps) rep fuel rest

/-- Python `s.replace(pat, rep)` for nonempty `pat`: replace every
non-overlapping occurrence, scanning left to right.  (The source only calls
this with nonempty patterns; for an empty pattern we leave the string
unchanged.) -/
def pyReplaceL (pat rep s : List Char) : List Char :=
  pyReplaceFuel pat rep s.length s

/-- Python `s.strip(chars)`: remove characters belonging to the set `cs` from
both ends. -/
def pyStripSetL (cs : List Char) (s : List Char) : List Char :=
  ((s.dropWhile (fun c => c ∈ cs)).reverse.dropWhile (fun c => c ∈ cs)).reverse

/-- Python `s.split(sep)[0]` for nonempty `sep`: the prefix of `s` before the
first occurrence of `sep` (all of `s` when `sep` does not occur). -/
def pySplitFirstL (pat : List Char) : List Char → List Char
  | [] => []
  | c :: rest =>
    if pat.isPrefixOf (c :: rest) then []
    else c :: pySplitFirstL pat rest

/-- Fuel-driven worker for `pySplitAllL` (structural recursion on the fuel;
the caller provides `s.length`, which always suffices). -/
def pySplitAllFuel : List Char → Nat → List Char → List (List Char)
  | _, _, [] => [[]]
  | _, 0, s => [s]
  | [], Nat.succ _, c :: rest => [c :: rest]
  | p :: ps, Nat.succ fuel, c :: rest =>
    if (p :: ps).isPrefixOf (c :: rest) then
      [] :: pySplitAllFuel (p :: ps) fuel (rest.drop ps.length)
    else
      match pySplitAllFuel (p :: ps) fuel rest with
      | [] => [[c]]
      | seg :: segs => (c :: seg) :: segs

/-- Python `s.split(sep)` for nonempty `sep`: the list of segments between
occurrences of `sep`. -/
def pySplitAllL (pat s : List Char) : List (List Char) :=
  pySplitAllFuel pat s.length s

/-- Characters Python's default `str.strip()` removes (ASCII whitespace). -/
def pyWhitespace : List Char := [' ', '\t', '\n', '\r', '\x0b', '\x0c']

/-- String wrappers around the `List Char` primitives. -/
def pyReplace (s pat rep : String) : String :=
  ⟨pyReplaceL pat.toList rep.toList s.toList⟩

def pyStripSet (s cs : String) : String :=
  ⟨pyStripSetL cs.toList s.toList⟩

def pyStripWs (s : String) : String :=
  ⟨pyStripSetL pyWhitespace s.toList⟩

def pySplitFirst (s pat : String) : String :=
  ⟨pySplitFirstL pat.toList s.toList⟩

def pySplitAll (s pat : String) : List String :=
  (pySplitAllL pat.toList s.toList).map (fun l => ⟨l⟩)

def isSubOf (pat s : String) : Bool := isSubOfL pat.toList s.toList

/-- Python `s[n:]`. -/
def pyDrop (s : String) (n : Nat) : String := ⟨s.toList.drop n⟩

/-- Python truthiness of an optional string (`None` and `''` are falsy). -/
def pyTruthy : Option String → Bool
  | none => false
  | some s => !(s == "")

/-- Dictionary lookup `args.get(k)` on an association list of query
parameters. -/
def pyGet (args : List (String × String)) (k : String) : Option String :=
  match args.find? (fun kv => kv.1 == k) with
  | some kv => some kv.2
  | none => none

/-- Python `int(s)`: optional surrounding whitespace, optional sign, decimal
digits; anything else raises `ValueError`.  (Digit-group underscores are not
modelled; the source never passes them.) -/
def pyIntCore (l : List Char) : Except PyErr Int :=
  match l with
  | [] => .error (.valueError "invalid literal for int() with base 10")
  | c :: rest =>
    let digits := if c = '-' ∨ c = '+' then rest else c :: rest
    if digits ≠ [] ∧ digits.all Char.isDigit then
      let n : Nat := digits.foldl (fun a d => a * 10 + (d.toNat - 48)) 0
      .ok (if c = '-' then -(n : Int) else (n : Int))
    else
      .error (.valueError "invalid literal for int() with base 10")

def pyInt (s : String) : Except PyErr Int :=
  pyIntCore (pyStripSetL pyWhitespace s.toList)

/-! ### Calendar arithmetic (CPython `datetime.date`) -/

def isLeap (y : Nat) : Bool :=
  y % 4 = 0 && (y % 100 ≠ 0 || y % 400 = 0)

def daysInMonth (y m : Nat) : Nat :=
  if m = 2 then (if isLeap y then 29 else 28)
  else if m = 4 ∨ m = 6 ∨ m = 9 ∨ m = 11 then 30
  else 31

def daysBeforeYear (y : Nat) : Nat :=
  (y - 1) * 365 + ((y - 1) / 4 - (y - 1) / 100 + (y - 1) / 400)

def daysBeforeMonth (y m : Nat) : Nat :=
  ((List.range' 1 (m - 1)).map (daysInMonth y)).sum

/-- `date(y, m, d).toordinal()`: days since 0001-01-01, which is day 1. -/
def toOrdinal (y m d : Nat) : Nat :=
  daysBeforeYear y + daysBeforeMonth y m + d

/-- `datetime.strptime(s, "%Y-%m-%d").date().toordinal()`: parse a
`YYYY-MM-DD` string and return the date's ordinal; any mismatch raises
`ValueError`. -/
def strptimeOrd (s : String) : Except PyErr Nat :=
  match pySplitAll s "-" with
  | [ys, ms, ds] =>
    let yl := ys.toList
    let ml := ms.toList
    let dl := ds.toList
    if yl ≠ [] ∧ yl.all Char.isDigit ∧ ml ≠ [] ∧ ml.all Char.isDigit ∧
        dl ≠ [] ∧ dl.all Char.isDigit then
      let y := yl.foldl (fun a c => a * 10 + (c.toNat - 48)) 0
      let m := ml.foldl (fun a c => a * 10 + (c.toNat - 48)) 0
      let d := dl.foldl (fun a c => a * 10 + (c.toNat - 48)) 0
      if 1 ≤ m ∧ m ≤ 12 ∧ 1 ≤ d ∧ d ≤ daysInMonth y m ∧ 1 ≤ y then
        .ok (toOrdinal y m d)
      else
        .error (.valueError "time data does not match format %Y-%m-%d")
    else
      .error (.valueError "time data does not match format %Y-%m-%d")
  | _ => .error (.valueError "time data does not match format %Y-%m-%d")

/-! ### Parsed-document model (`BeautifulSoup` features used by the source) -/

/-- An HTML tag with its attributes and text content. -/
structure Tag where
  attrs : List (String × String)
  text : String
deriving DecidableEq, Repr

/-- A `<center>` block; `bolds` are the texts of its `<b>` descendants in
document order. -/
structure Center where
  bolds : List String
deriving DecidableEq, Repr

/-- An element matched by `findAll(['b', 'a'], text=True)`, together with the
texts of its following siblings (`none` when reading `.text` on a sibling
raises and the `except: pass` skips it). -/
structure BAElem where
  text : String
  siblingTexts : List (Option String)
deriving DecidableEq, Repr

/-- The features of a parsed APOD page that `app.py` inspects. -/
structure Soup where
  /-- `soup.img`: the first `<img>` tag, `none` when absent. -/
  img : Option Tag
  /-- `soup.iframe`: the first `<iframe>` tag, `none` when absent. -/
  iframe : Option Tag
  /-- `href` values of `find_all('a', href=True)`, in document order. -/
  hrefLinks : List String
  /-- texts of `findAll('a', text=True)`, in document order. -/
  anchorTexts : List String
  /-- `findAll(['b', 'a'], text=True)` with their following siblings. -/
  baElems : List BAElem
  /-- `find_all('center')`. -/
  centers : List Center
  /-- `soup.title.text`, `none` when the document has no `<title>`. -/
  titleTag : Option String
  /-- texts of `find_all('p')`, in document order. -/
  paragraphs : List String
  /-- `soup.text`: the text of the whole document. -/
  text : String
deriving DecidableEq, Repr

/-- The per-date record assembled by `_get_apod_chars` (the `props` dict).
`date` holds the ordinal of the date whose `isoformat()` the source stores. -/
structure Props where
  explanation : String
  title : String
  copyright : Option String
  media_type : String
  url : String
  date : Nat
  hdurl : Option String
  concepts : Option String := none
deriving DecidableEq, Repr

/-- A record as returned to the client: `props` plus the `service_version`
key added by the orchestrator functions. -/
structure Rec where
  props : Props
  service_version : String
deriving DecidableEq, Repr

/-- The ambient state of one request: the wall-clock date, the network (page
source by date ordinal), the optional concept-tagging credential read at
startup, and the random sampler (`random.sample` keyed by the count). -/
structure Env where
  todayOrd : Nat
  pages : Nat → Except PyErr Soup
  apikey : Option String
  sampleDraw : Int → List Nat

def SERVICE_VERSION : String := "v1"

def BASE : String := "https://apod.nasa.gov/apod/"

def ALLOWED_APOD_FIELDS : List String :=
  ["concept_tags", "date", "hd", "count", "start_date", "end_date"]

/-- `tag[key]` subscription: `KeyError` when the attribute is absent. -/
def tagGet (t : Tag) (k : String) : Except PyErr String :=
  match t.attrs.find? (fun kv => kv.1 == k) with
  | some kv => Except.ok kv.2
  | none => Except.error PyErr.keyError

/-! ### FieldExtractor: `_title`, `_copyright`, `_explanation` -/

/-- Fallback title strategy: split `soup.title.text` on the literal `" - "`
and take the last segment, whitespace-trimmed.  Raises `AttributeError` when
the document has no `<title>` (then `soup.title` is `None`). -/
def titleFromDocTitle (soup : Soup) : Except PyErr String :=
  match soup.titleTag with
  | none => Except.error PyErr.attributeError
  | some t => Except.ok (pyStripWs ((pySplitAll t " - ").getLastD ""))

/-- `_title`: second `<center>` block's first `<b>` text, stripped of spaces;
on any structural failure, the document-title fallback. -/
def _title (soup : Soup) : Except PyErr String :=
  match soup.centers[1]? with
  | some c =>
    match c.bolds[0]? with
    | some b => Except.ok (pyStripSet b " ")
    | none => titleFromDocTitle soup
  | none => titleFromDocTitle soup

/-- First copyright scan: walk the anchors with text; once an anchor contains
`"Copyright"`, the *next* anchor's text (space-stripped) is the result. -/
def copyrightNextAnchor : List String → Option String
  | [] => none
  | t :: rest =>
    if isSubOf "Copyright" t then
      match rest with
      | [] => none
      | u :: _ => some (pyStripSet u " ")
    else copyrightNextAnchor rest

/-- Concatenate the readable texts of an element's following siblings; the
space-stripped result when nonempty. -/
def copyrightSiblings (e : BAElem) : Option String :=
  let stuff := String.join (e.siblingTexts.filterMap id)
  if stuff == "" then none else some (pyStripSet stuff " ")

/-- Second copyright scan over `findAll(['b','a'], text=True)`: the loop has
no `break`, so the *last* matching element with a nonempty sibling
concatenation wins. -/
def copyrightSecondScan : List BAElem → Option String
  | [] => none
  | e :: rest =>
    match copyrightSecondScan rest with
    | some s => some s
    | none =>
      if isSubOf "Copyright" e.text then copyrightSiblings e else none

/-- `_copyright`: first scan, then (when the first result is falsy: `None` or
the empty string) the sibling-concatenation scan.  Every step of the model is
total, so the source's `except … raise ValueError('Unsupported schema …')`
wrapper never fires here. -/
def _copyright (soup : Soup) : Option String :=
  let c1 := copyrightNextAnchor soup.anchorTexts
  if c1 = none ∨ c1 = some "" then
    match copyrightSecondScan soup.baElems with
    | some s => some s
    | none => c1
  else c1

/-- First index of `a` in a list of strings (`list.index`, as an option). -/
def listIndexOf (a : String) : List String → Option Nat
  | [] => none
  | x :: rest => if x == a then some 0 else (listIndexOf a rest).map (· + 1)

/-- Join `texts[beginIdx : beginIdx + idx]` with single spaces, where `idx` is
the index of the first empty line at or after `beginIdx`; `ValueError` when no
empty line follows (`texts[begin_idx:].index('')`). -/
def explanationBlock (texts : List String) (beginIdx : Nat) : Except PyErr String :=
  match listIndexOf "" (texts.drop beginIdx) with
  | none => Except.error (PyErr.valueError "is not in list")
  | some idx => Except.ok (String.intercalate " " ((texts.drop beginIdx).take idx))

/-- Fallback explanation strategy for early pages: split the whole document
text into whitespace-stripped lines, find the line `"Explanation:"` (or the
unique line containing it, dropping its first 12 characters), and join the
following lines up to the next blank line. -/
def explanationFallback (soup : Soup) : Except PyErr String :=
  let texts := (pySplitAll soup.text "\n").map pyStripWs
  match listIndexOf "Explanation:" texts with
  | some i => explanationBlock texts (i + 1)
  | none =>
    match texts.filter (fun x => isSubOf "Explanation:" x) with
    | [l] =>
      match listIndexOf l texts with
      | some i => explanationBlock (texts.set i (pyStripWs (pyDrop l 12))) i
      | none => Except.error (PyErr.valueError "is not in list")
    | _ => Except.error (PyErr.valueError "is not in list")

/-- `_explanation`: the third `<p>` text, newlines and doubled spaces replaced
by single spaces, then `strip(' ')`, then Python's `strip('Explanation: ')`
(a *character set* strip), then cut at `" Tomorrow's picture"`, then
`strip(' ')`; when this leaves the empty string, the early-page fallback. -/
def _explanation (soup : Soup) : Except PyErr String := do
  let p ← match soup.paragraphs[2]? with
    | some p => Except.ok p
    | none => Except.error PyErr.indexError
  let s1 := pyReplace p "\n" " "
  let s2 := pyReplace s1 "  " " "
  let s3 := pyStripSet (pyStripSet s2 " ") "Explanation: "
  let s4 := pyStripSet (pySplitFirst s3 " Tomorrow's picture") " "
  if s4 = "" then explanationFallback soup else Except.ok s4

/-! ### PageFetcher + FieldExtractor per-date unit: `_get_apod_chars` -/

/-- The `hd_data` scan: the first link whose `href` is truthy and starts with
the literal `"image"` overrides the default. -/
def hdScan (links : List String) (dflt : String) : String :=
  match links.find? (fun h => !(h == "") && "image".toList.isPrefixOf h.toList) with
  | some h => BASE ++ h
  | none => dflt

/-- Media detection and URL resolution of `_get_apod_chars`: an embedded
image gives `media_type = "image"` with `url = BASE + img['src']` and the
`hd_data` link scan; otherwise an embedded frame gives `media_type = "video"`
with `url = iframe['src']`.  With no `<img>` and no `<iframe>`,
`soup.iframe['src']` subscripts `None` and raises `TypeError`. -/
def mediaResolve (soup : Soup) : Except PyErr (String × String × Option String) :=
  match soup.img with
  | some img => do
    let src ← tagGet img "src"
    let data := BASE ++ src
    Except.ok ("image", data, some (hdScan soup.hrefLinks data))
  | none =>
    match soup.iframe with
    | none => Except.error PyErr.typeError
    | some fr => do
      let src ← tagGet fr "src"
      Except.ok ("video", src, (none : Option String))

/-- `_get_apod_chars(dt)`: fetch the page for the date (the URL derivation
`BASE ++ 'ap' ++ dt.strftime('%y%m%d') ++ '.html'` and the HTTP GET are the
network boundary `env.pages`), resolve media and URLs, extract the fields,
and assemble the `props` record with `date = dt.isoformat()`. -/
def _get_apod_chars (env : Env) (dtOrd : Nat) : Except PyErr Props := do
  let soup ← env.pages dtOrd
  let mdh ← mediaResolve soup
  let expl ← _explanation soup
  let ttl ← _title soup
  let cr := _copyright soup
  Except.ok {
    explanation := expl
    title := ttl
    copyright := if pyTruthy cr then cr else none
    media_type := mdh.1
    url := mdh.2.1
    date := dtOrd
    hdurl := mdh.2.2 }

/-- `parse_apod(dt, use_default_today_date)`: one fetch+extract attempt; on
any failure, when the date was defaulted from today, one retry for the
previous day (a direct `_get_apod_chars(dt - 1)`, so no further fallback);
otherwise `raise Exception(ex)` re-raises a wrapped failure. -/
def parse_apod (env : Env) (dtOrd : Nat) (use_default_today_date : Bool) :
    Except PyErr Props :=
  match _get_apod_chars env dtOrd with
  | Except.ok p => Except.ok p
  | Except.error ex =>
    if use_default_today_date then
      _get_apod_chars env (dtOrd - 1)
    else
      Except.error (PyErr.wrapped ex)

/-! ### Error responses: `_abort` -/

/-- The call `json.dumps(service_version=…, msg=…, code=…)` in `_abort`:
`json.dumps` requires its positional argument `obj`; passing only these
keyword arguments raises `TypeError: dumps() missing 1 required positional
argument: 'obj'`. -/
def json_dumps_kwonly (_kwargs : List (String × String)) : Except PyErr String :=
  Except.error PyErr.typeError

/-- `_abort(code, msg, usage)`: meant to build the
`{service_version, msg, code}` error response, but its `json.dumps` call
raises `TypeError`; and even if it returned, the result would be a `str`, so
`response.status_code = code` would raise `AttributeError`. -/
def _abort (code : Nat) (msg : String) (usage : Bool) : Except PyErr String := do
  let msg := if usage then msg ++ " " ++ "'" else msg
  let _ ← json_dumps_kwonly
    [("service_version", SERVICE_VERSION), ("msg", msg), ("code", toString code)]
  Except.error PyErr.attributeError

/-- Evaluate a `return _abort(...)` whose value would be returned at type
`α`: since `_abort` always raises, the error propagates (the `ok` branch is
unreachable). -/
def abortReturn (α : Type) (code : Nat) (msg : String) (usage : Bool) :
    Except PyErr α :=
  match _abort code msg usage with
  | Except.ok _ => Except.error PyErr.typeError
  | Except.error e => Except.error e

/-! ### DateResolver: `_validate`, `_validate_date` -/

/-- `_validate(data)`: every query-parameter name must be allowed. -/
def _validate (data : List (String × String)) : Bool :=
  data.all (fun kv => ALLOWED_APOD_FIELDS.contains kv.1)

/-- The `ValueError` message of `_validate_date` (the source interpolates the
`strftime('%b %d, %Y')`-formatted bounds; the formatted bounds are elided). -/
def outOfRangeMsg : String := "Date must be between %s and %s."

/-- `datetime(1995, 6, 16).date()`: the first APOD image date. -/
def beginOrdinal : Nat := toOrdinal 1995 6 16

/-- `_validate_date(dt)`: `ValueError` when `dt > today` or `dt < begin`.
`todayOrd` is the wall clock `datetime.today().date()` read inside the
function. -/
def _validate_date (dtOrd todayOrd : Nat) : Except PyErr Unit :=
  if todayOrd < dtOrd ∨ dtOrd < beginOrdinal then
    Except.error (PyErr.valueError outOfRangeMsg)
  else
    Except.ok ()

/-! ### RangeOrchestrator: `_apod_handler` and the three entry points -/

/-- The fixed placeholder stored in `concepts` when no credential is
configured. -/
def conceptPlaceholder : String :=
  "concept_tags functionality turned off in current service"

/-- `_apod_handler(dt, use_concept_tags, use_default_today_date)`: run
`parse_apod`; with concept tags requested and no credential, degrade to the
placeholder string.  With a credential the source calls
`get_concepts(request, …)` where `request` is an unbound name, so `NameError`
is raised; any exception in the `try` is answered by `return _abort(500, …)`,
which itself raises. -/
def _apod_handler (env : Env) (dtOrd : Nat)
    (use_concept_tags use_default_today_date : Bool) : Except PyErr Props :=
  match parse_apod env dtOrd use_default_today_date with
  | Except.ok page_props =>
    if use_concept_tags then
      match env.apikey with
      | none => Except.ok { page_props with concepts := some conceptPlaceholder }
      | some _ => abortReturn Props 500 "Internal Service Error" false
    else Except.ok page_props
  | Except.error _ => abortReturn Props 500 "Internal Service Error" false

/-- `_get_json_for_date(input_date, use_concept_tags)`: default a falsy date
parameter to today (with fallback eligibility), parse, validate, run the
handler, and add `service_version`.  (For the defaulted case the source
formats today with `'%Y-%m-%d'` and re-parses it; the net effect is today's
ordinal.) -/
def _get_json_for_date (env : Env) (input_date : Option String)
    (use_concept_tags : Bool) : Except PyErr Rec := do
  let use_default := !(pyTruthy input_date)
  let dt ← if pyTruthy input_date then strptimeOrd (input_date.getD "")
           else Except.ok env.todayOrd
  _validate_date dt env.todayOrd
  let data ← _apod_handler env dt use_concept_tags use_default
  Except.ok { props := data, service_version := SERVICE_VERSION }

def countMsg : String := "Count must be positive and cannot exceed 100"

/-- The per-drawn-date loop of `_get_json_for_random_dates`: one record is
appended per drawn ordinal, in draw order, with no check on the record's
date; the drawn day is fallback-eligible exactly when it equals today. -/
def randLoop (env : Env) (uct : Bool) : List Nat → Except PyErr (List Rec)
  | [] => Except.ok []
  | o :: rest => do
    let data ← _apod_handler env o uct (o == env.todayOrd)
    let tail ← randLoop env uct rest
    Except.ok ({ props := data, service_version := SERVICE_VERSION } :: tail)

/-- `_get_json_for_random_dates(count, use_concept_tags)`: reject counts
outside `(0, 100]`, then run the per-date unit once per drawn ordinal.
`drawn` stands for `random.sample(range(begin_ordinal, today_ordinal + 1),
count)`: a list of `count` distinct ordinals from the valid window, in draw
order (these sampling guarantees appear as hypotheses of the theorems). -/
def _get_json_for_random_dates (env : Env) (count : Int) (uct : Bool)
    (drawn : List Nat) : Except PyErr (List Rec) :=
  if count > 100 ∨ count ≤ 0 then
    Except.error (PyErr.valueError countMsg)
  else randLoop env uct drawn

def rangeMsg : String := "start_date cannot be after end_date"

/-- The per-day loop of `_get_json_for_date_range`: one handler run per
ordinal; the record is kept only when its `date` field equals the iterated
ordinal (`data['date'] == dt.isoformat()`). -/
def rangeLoop (env : Env) (uct : Bool) : List Nat → Except PyErr (List Rec)
  | [] => Except.ok []
  | o :: rest => do
    let data ← _apod_handler env o uct (o == env.todayOrd)
    let tail ← rangeLoop env uct rest
    if data.date = o then
      Except.ok ({ props := data, service_version := SERVICE_VERSION } :: tail)
    else
      Except.ok tail

/-- `_get_json_for_date_range(start_date, end_date, use_concept_tags)`:
parse and validate the start date; default a falsy end date to today (the
source formats today and re-parses it) and validate it; reject `start > end`;
iterate every ordinal from start to end inclusive, ascending. -/
def _get_json_for_date_range (env : Env) (start_date : String)
    (end_date : Option String) (uct : Bool) : Except PyErr (List Rec) := do
  let s ← strptimeOrd start_date
  _validate_date s env.todayOrd
  let e ← if pyTruthy end_date then strptimeOrd (end_date.getD "")
          else Except.ok env.todayOrd
  _validate_date e env.todayOrd
  if s > e then Except.error (PyErr.valueError rangeMsg)
  else rangeLoop env uct (List.range' s (e + 1 - s))

/-! ### The HTTP endpoint: `apod()` -/

/-- The value computed by the endpoint's `try` block (before `json.dumps`
serialization, which maps equal values to equal response bodies). -/
inductive ApodResult : Type where
  | single : Rec → ApodResult
  | multi : List Rec → ApodResult
  | aborted : String → ApodResult
deriving DecidableEq, Repr

/-- Which branch of the endpoint's parameter dispatch a query-parameter set
selects. -/
inductive DispatchMode : Type where
  | singleM : Option String → Bool → DispatchMode
  | randomM : String → Bool → DispatchMode
  | rangeM : String → Option String → Bool → DispatchMode
  | invalidCombo : DispatchMode
  | invalidField : DispatchMode
deriving DecidableEq, Repr

/-- The endpoint's mode dispatch, read off the `if/elif` chain of `apod()`. -/
def dispatchMode (args : List (String × String)) : DispatchMode :=
  if !(_validate args) then DispatchMode.invalidField
  else
    let input_date := pyGet args "date"
    let count := pyGet args "count"
    let start_date := pyGet args "start_date"
    let end_date := pyGet args "end_date"
    let uct := pyTruthy (pyGet args "concept_tags")
    if !(pyTruthy count) && !(pyTruthy start_date) && !(pyTruthy end_date) then
      DispatchMode.singleM input_date uct
    else if !(pyTruthy input_date) && !(pyTruthy start_date) &&
        !(pyTruthy end_date) && pyTruthy count then
      DispatchMode.randomM (count.getD "") uct
    else if !(pyTruthy count) && !(pyTruthy input_date) && pyTruthy start_date then
      DispatchMode.rangeM (start_date.getD "") end_date uct
    else DispatchMode.invalidCombo

/-- The body of the endpoint's `try` block: name-validate the parameters,
then dispatch on the mutually exclusive parameter groups. -/
def apodTry (env : Env) (args : List (String × String)) : Except PyErr ApodResult :=
  if !(_validate args) then
    match _abort 400 "Bad Request: incorrect field passed." true with
    | Except.ok s => Except.ok (ApodResult.aborted s)
    | Except.error e => Except.error e
  else
    let input_date := pyGet args "date"
    let count := pyGet args "count"
    let start_date := pyGet args "start_date"
    let end_date := pyGet args "end_date"
    let uct := pyTruthy (pyGet args "concept_tags")
    if !(pyTruthy count) && !(pyTruthy start_date) && !(pyTruthy end_date) then
      (_get_json_for_date env input_date uct).map ApodResult.single
    else if !(pyTruthy input_date) && !(pyTruthy start_date) &&
        !(pyTruthy end_date) && pyTruthy count then
      match pyInt (count.getD "") with
      | Except.error e => Except.error e
      | Except.ok c =>
        (_get_json_for_random_dates env c uct (env.sampleDraw c)).map ApodResult.multi
    else if !(pyTruthy count) && !(pyTruthy input_date) && pyTruthy start_date then
      (_get_json_for_date_range env (start_date.getD "") end_date uct).map
        ApodResult.multi
    else
      match _abort 400 "Bad Request: invalid field combination passed." true with
      | Except.ok s => Except.ok (ApodResult.aborted s)
      | Except.error e => Except.error e

/-- The endpoint `apod()`: the `try` body, with `except ValueError` answered
by `_abort(400, str(ve), False)` and `except Exception` answered by
`_abort(500, …)` (no exception our model produces is a `ValueError` subtype
or has `'BadRequest'` in its type name, so the second handler's 400 branch is
dead); an exception raised while evaluating an `_abort` inside a handler
propagates out of the endpoint. -/
def apod (env : Env) (args : List (String × String)) : Except PyErr ApodResult :=
  match apodTry env args with
  | Except.ok r => Except.ok r
  | Except.error (PyErr.valueError m) =>
    match _abort 400 m false with
    | Except.ok s => Except.ok (ApodResult.aborted s)
    | Except.error e => Except.error e
  | Except.error _ =>
    match _abort 500 "Internal Service Error" false with
    | Except.ok s => Except.ok (ApodResult.aborted s)
    | Except.error e => Except.error e

/-! ### Concrete pages and environments used by witnesses and
counterexamples -/

/-- A well-formed modern APOD page: an image with a relative source, one
`image…`-prefixed link, a title in the second center block, and a standard
explanation paragraph. -/
def soupGood : Soup := {
  img := some { attrs := [("src", "image/apic.jpg")], text := "" }
  iframe := none
  hrefLinks := ["image/big.jpg"]
  anchorTexts := []
  baElems := []
  centers := [{ bolds := [] }, { bolds := ["Starry Night"] }]
  titleTag := some "APOD: 2020 January 5 - Starry Night"
  paragraphs := ["", "", "Explanation: A nice sky. Tomorrow's picture: more sky."]
  text := "" }

/-- The record `_get_apod_chars` extracts from `soupGood` for date `o`. -/
def propsGood (o : Nat) : Props := {
  explanation := "A nice sky."
  title := "Starry Night"
  copyright := none
  media_type := "image"
  url := "https://apod.nasa.gov/apod/image/apic.jpg"
  date := o
  hdurl := some "https://apod.nasa.gov/apod/image/big.jpg"
  concepts := none }

/-- A page with neither an `<img>` nor an `<iframe>`. -/
def soupBare : Soup := {
  img := none
  iframe := none
  hrefLinks := []
  anchorTexts := []
  baElems := []
  centers := []
  titleTag := none
  paragraphs := []
  text := "" }

/-- Like `soupGood`, but the explanation body starts with characters from the
stripped character set of `'Explanation: '`. -/
def soupAntelopes : Soup := {
  soupGood with
  paragraphs := ["", "",
    "Explanation: antelopes run. Tomorrow's picture: more sky."] }

/-- Environment where every page fetch/extract succeeds (`soupGood`) and
today is 2020-02-01. -/
def envOk : Env := {
  todayOrd := toOrdinal 2020 2 1
  pages := fun _ => Except.ok soupGood
  apikey := none
  sampleDraw := fun _ => [] }

/-- Environment where every fetch fails. -/
def envFail : Env := {
  todayOrd := toOrdinal 2020 6 1
  pages := fun _ => Except.error PyErr.fetchError
  apikey := none
  sampleDraw := fun _ => [] }

/-- Today's ordinal in the fallback scenario: 2020-03-10. -/
def t0 : Nat := toOrdinal 2020 3 10

/-- Environment where the page for today (`t0`) fails but every other page
succeeds: the one-day fallback fires exactly for today. -/
def envFb : Env := {
  todayOrd := t0
  pages := fun o => if o = t0 then Except.error PyErr.fetchError
                    else Except.ok soupGood
  apikey := none
  sampleDraw := fun _ => [t0, t0 - 1] }

/-- Environment serving the bare page (`soupBare`) for every date. -/
def envBare : Env := {
  todayOrd := toOrdinal 2020 6 1
  pages := fun _ => Except.ok soupBare
  apikey := none
  sampleDraw := fun _ => [] }

/-! ### Decidability and helper lemmas -/

instance instDecEqExcept {ε α : Type} [DecidableEq ε] [DecidableEq α] :
    DecidableEq (Except ε α) := fun x y =>
  match x, y with
  | Except.ok a, Except.ok b =>
    if h : a = b then Decidable.isTrue (by rw [h])
    else Decidable.isFalse (by simp [h])
  | Except.error a, Except.error b =>
    if h : a = b then Decidable.isTrue (by rw [h])
    else Decidable.isFalse (by simp [h])
  | Except.ok _, Except.error _ => Decidable.isFalse (by simp)
  | Except.error _, Except.ok _ => Decidable.isFalse (by simp)

/-- The first character of `l` is not in the character set `cs` (vacuous for
the empty list). -/
def headNotIn (cs l : List Char) : Bool :=
  match l.head? with
  | some c => !(decide (c ∈ cs))
  | none => true

/-- The last character of `l` is not in the character set `cs` (vacuous for
the empty list). -/
def lastNotIn (cs l : List Char) : Bool :=
  match l.getLast? with
  | some c => !(decide (c ∈ cs))
  | none => true

theorem dropWhile_append_all {p : Char → Bool} (xs ys : List Char)
    (h : ∀ x ∈ xs, p x = true) :
    (xs ++ ys).dropWhile p = ys.dropWhile p := by
  induction xs with
  | nil => rfl
  | cons a l ih =>
    rw [List.cons_append, List.dropWhile_cons, if_pos (h a (by simp))]
    exact ih (fun x hx => h x (by simp [hx]))

theorem dropWhile_eq_self_of_head {p : Char → Bool} (l : List Char)
    (h : ∀ c, l.head? = some c → p c = false) : l.dropWhile p = l := by
  cases l with
  | nil => rfl
  | cons a t =>
    rw [List.dropWhile_cons, h a rfl]
    simp

theorem pyStripSetL_eq_self (cs l : List Char)
    (hh : headNotIn cs l = true) (hl : lastNotIn cs l = true) :
    pyStripSetL cs l = l := by
  unfold pyStripSetL
  have h1 : l.dropWhile (fun c => decide (c ∈ cs)) = l := by
    apply dropWhile_eq_self_of_head
    intro c hc
    unfold headNotIn at hh
    rw [hc] at hh
    simpa using hh
  rw [h1]
  have h2 : l.reverse.dropWhile (fun c => decide (c ∈ cs)) = l.reverse := by
    apply dropWhile_eq_self_of_head
    intro c hc
    rw [List.head?_reverse] at hc
    unfold lastNotIn at hl
    rw [hc] at hl
    simpa using hl
  rw [h2, List.reverse_reverse]

theorem pyStripSetL_strips_label (cs pre l : List Char)
    (hpre : ∀ c ∈ pre, c ∈ cs)
    (hh : headNotIn cs l = true) (hl : lastNotIn cs l = true) :
    pyStripSetL cs (pre ++ l) = l := by
  unfold pyStripSetL
  rw [dropWhile_append_all pre l (by intro x hx; simpa using hpre x hx)]
  have h1 : l.dropWhile (fun c => decide (c ∈ cs)) = l := by
    apply dropWhile_eq_self_of_head
    intro c hc
    unfold headNotIn at hh
    rw [hc] at hh
    simpa using hh
  rw [h1]
  have h2 : l.reverse.dropWhile (fun c => decide (c ∈ cs)) = l.reverse := by
    apply dropWhile_eq_self_of_head
    intro c hc
    rw [List.head?_reverse] at hc
    unfold lastNotIn at hl
    rw [hc] at hl
    simpa using hl
  rw [h2, List.reverse_reverse]

theorem pyReplaceFuel_of_not_sub (pat rep : List Char) :
    ∀ (fuel : Nat) (s : List Char), isSubOfL pat s = false →
      pyReplaceFuel pat rep fuel s = s := by
  intro fuel
  induction fuel with
  | zero => intro s _; cases pat <;> cases s <;> rfl
  | succ f ih =>
    intro s h
    cases s with
    | nil => cases pat <;> rfl
    | cons c rest =>
      rw [isSubOfL, Bool.or_eq_false_iff] at h
      obtain ⟨h1, h2⟩ := h
      cases pat with
      | nil => simp [List.isPrefixOf] at h1
      | cons p ps =>
        rw [pyReplaceFuel, if_neg (by rw [h1]; exact Bool.false_ne_true)]
        rw [ih rest h2]

theorem pyReplaceL_of_not_sub (pat rep : List Char) (s : List Char)
    (h : isSubOfL pat s = false) : pyReplaceL pat rep s = s :=
  pyReplaceFuel_of_not_sub pat rep s.length s h

theorem prefix_of_append_of_le (pat u r : List Char) (h : pat.length ≤ u.length)
    (hp : pat <+: u ++ r) : pat <+: u := by
  have ht := List.prefix_iff_eq_take.1 hp
  rw [List.take_append_eq_append_take, Nat.sub_eq_zero_of_le h, List.take_zero,
    List.append_nil] at ht
  rw [List.prefix_iff_eq_take]
  exact ht

theorem pySplitFirstL_append (pat : List Char) (hpat : pat ≠ []) :
    ∀ body rest : List Char, pySplitFirstL pat (body ++ pat) = body →
      pySplitFirstL pat (body ++ (pat ++ rest)) = body := by
  intro body
  induction body with
  | nil =>
    intro rest _
    rw [List.nil_append]
    cases pat with
    | nil => exact absurd rfl hpat
    | cons p ps =>
      have hp : (p :: ps).isPrefixOf (p :: (ps ++ rest)) = true := by
        rw [← List.cons_append]
        exact List.isPrefixOf_iff_prefix.2 (List.prefix_append (p :: ps) rest)
      rw [List.cons_append, pySplitFirstL, if_pos hp]
  | cons c b ih =>
    intro rest h
    rw [List.cons_append] at h
    rw [pySplitFirstL] at h
    by_cases hpre : pat.isPrefixOf (c :: (b ++ pat)) = true
    · rw [if_pos hpre] at h
      exact absurd h.symm (List.cons_ne_nil c b)
    · rw [if_neg hpre] at h
      have htail : pySplitFirstL pat (b ++ pat) = b := by
        injection h
      rw [List.cons_append, pySplitFirstL, if_neg]
      · rw [ih rest htail]
      · intro hc
        apply hpre
        rw [List.isPrefixOf_iff_prefix] at hc ⊢
        have : c :: (b ++ (pat ++ rest)) = (c :: (b ++ pat)) ++ rest := by
          simp
        rw [this] at hc
        exact prefix_of_append_of_le pat (c :: (b ++ pat)) rest (by simp; omega) hc

@[simp] theorem exceptBind_ok {ε α β : Type} (a : α) (f : α → Except ε β) :
    (Except.ok a >>= f) = f a := rfl

@[simp] theorem exceptBind_error {ε α β : Type} (e : ε) (f : α → Except ε β) :
    ((Except.error e : Except ε α) >>= f) = Except.error e := rfl

@[simp] theorem exceptMap_ok {ε α β : Type} (a : α) (f : α → β) :
    (Except.ok a : Except ε α).map f = Except.ok (f a) := rfl

@[simp] theorem exceptMap_error {ε α β : Type} (e : ε) (f : α → β) :
    (Except.error e : Except ε α).map f = (Except.error e : Except ε β) := rfl

/-! ### Claim theorems -/

/-- C6: date validation succeeds exactly for `earliest ≤ d ≤ today`, where
`earliest` is the fixed first published date 1995-06-16 (`beginOrdinal`), and
fails with the out-of-range `ValueError` for `d < earliest` or `d > today`. -/
theorem validate_date_window (d today : Nat) :
    (_validate_date d today = Except.ok () ↔ beginOrdinal ≤ d ∧ d ≤ today)
    ∧ ((d < beginOrdinal ∨ today < d) →
        _validate_date d today = Except.error (PyErr.valueError outOfRangeMsg)) := by
  unfold _validate_date
  by_cases hc : today < d ∨ d < beginOrdinal
  · rw [if_pos hc]
    exact ⟨⟨fun h => Except.noConfusion h, fun h => by omega⟩, fun _ => rfl⟩
  · rw [if_neg hc]
    exact ⟨⟨fun _ => by omega, fun _ => rfl⟩, fun hcon => (hc hcon.symm).elim⟩

/-- Witness for `validate_date_window`: the day before the first APOD date is
rejected, the first APOD date itself is accepted. -/
theorem validate_date_window_witness :
    _validate_date (beginOrdinal - 1) beginOrdinal =
      Except.error (PyErr.valueError outOfRangeMsg)
    ∧ _validate_date beginOrdinal beginOrdinal = Except.ok () :=
  ⟨(validate_date_window (beginOrdinal - 1) beginOrdinal).2 (Or.inl (by decide)),
   (validate_date_window beginOrdinal beginOrdinal).1.2 ⟨Nat.le_refl _, Nat.le_refl _⟩⟩

/-- C7: when concept tagging is requested and no credential is configured,
a successful per-date unit completes without error and its `concepts` field
is the fixed placeholder string. -/
theorem concept_placeholder_on_missing_key (env : Env) (d : Nat)
    (useDefault : Bool) (p : Props)
    (hkey : env.apikey = none)
    (hparse : parse_apod env d useDefault = Except.ok p) :
    _apod_handler env d true useDefault =
      Except.ok { p with concepts := some conceptPlaceholder } := by
  simp [_apod_handler, hparse, hkey]

/-- Witness for `concept_placeholder_on_missing_key` at a concrete
environment and date. -/
theorem concept_placeholder_witness :
    envOk.apikey = none
    ∧ parse_apod envOk 737429 false = Except.ok (propsGood 737429)
    ∧ _apod_handler envOk 737429 true false =
        Except.ok { propsGood 737429 with concepts := some conceptPlaceholder } :=
  ⟨rfl, by decide,
   concept_placeholder_on_missing_key envOk 737429 false (propsGood 737429) rfl
     (by decide)⟩

/-- C2: the per-date unit (`_get_apod_chars`, fetch+extract) is attempted
once; a success is returned as is; on failure with `use_default_today_date`
the whole unit is re-run exactly once for the previous calendar day with no
further fallback, and without the flag the failure propagates (wrapped by
`raise Exception(ex)`) with no retry. -/
theorem parse_apod_fallback_policy (env : Env) (d : Nat) :
    (∀ p : Props, _get_apod_chars env d = Except.ok p →
      ∀ b : Bool, parse_apod env d b = Except.ok p)
    ∧ (∀ e : PyErr, _get_apod_chars env d = Except.error e →
      parse_apod env d true = _get_apod_chars env (d - 1))
    ∧ (∀ e : PyErr, _get_apod_chars env d = Except.error e →
      parse_apod env d false = Except.error (PyErr.wrapped e)) := by
  refine ⟨?_, ?_, ?_⟩ <;> intro x hx
  · intro b
    simp [parse_apod, hx]
  · simp [parse_apod, hx]
  · simp [parse_apod, hx]

/-- Witness for `parse_apod_fallback_policy` in the environment where every
fetch fails. -/
theorem parse_apod_fallback_witness :
    _get_apod_chars envFail 5 = Except.error PyErr.fetchError
    ∧ parse_apod envFail 5 true = _get_apod_chars envFail 4
    ∧ parse_apod envFail 5 false = Except.error (PyErr.wrapped PyErr.fetchError) :=
  ⟨by decide,
   (parse_apod_fallback_policy envFail 5).2.1 PyErr.fetchError (by decide),
   (parse_apod_fallback_policy envFail 5).2.2 PyErr.fetchError (by decide)⟩

/-- Helper for C8: a successful media resolution with `media_type "video"`
comes from the frame branch, so the page has an `<iframe>` whose `src`
attribute is the resolved URL. -/
theorem mediaResolve_video (soup : Soup) (mdh : String × String × Option String)
    (h : mediaResolve soup = Except.ok mdh) (hv : mdh.1 = "video") :
    ∃ fr : Tag, soup.iframe = some fr ∧ tagGet fr "src" = Except.ok mdh.2.1 := by
  cases him : soup.img with
  | some img =>
    simp only [mediaResolve, him] at h
    cases hsrc : tagGet img "src" with
    | error e => rw [hsrc] at h; simp at h
    | ok src =>
      rw [hsrc] at h
      simp only [exceptBind_ok, Except.ok.injEq] at h
      rw [← h] at hv
      simp at hv
  | none =>
    cases hif : soup.iframe with
    | none => simp [mediaResolve, him, hif] at h
    | some fr =>
      simp only [mediaResolve, him, hif] at h
      cases hsrc : tagGet fr "src" with
      | error e => rw [hsrc] at h; simp at h
      | ok src =>
        rw [hsrc] at h
        simp only [exceptBind_ok, Except.ok.injEq] at h
        refine ⟨fr, rfl, ?_⟩
        rw [hsrc, ← h]

/-- C8: a fetched document with neither an embedded image nor an embedded
frame makes the per-date unit raise (`soup.iframe['src']` subscripts `None`),
and a record with `media_type = "video"` is only ever produced from a frame
with a `src` attribute, whose value is the record's `url`. -/
theorem video_requires_frame (env : Env) (d : Nat) (soup : Soup)
    (hp : env.pages d = Except.ok soup) :
    (soup.img = none → soup.iframe = none →
      _get_apod_chars env d = Except.error PyErr.typeError)
    ∧ (∀ p : Props, _get_apod_chars env d = Except.ok p →
        p.media_type = "video" →
        ∃ fr : Tag, soup.iframe = some fr ∧ tagGet fr "src" = Except.ok p.url) := by
  constructor
  · intro h1 h2
    have hm : mediaResolve soup = Except.error PyErr.typeError := by
      simp [mediaResolve, h1, h2]
    rw [_get_apod_chars, hp, exceptBind_ok, hm, exceptBind_error]
  · intro p hok hvid
    rw [_get_apod_chars, hp, exceptBind_ok] at hok
    cases hm : mediaResolve soup with
    | error e => rw [hm] at hok; simp at hok
    | ok mdh =>
      rw [hm, exceptBind_ok] at hok
      cases he : _explanation soup with
      | error e => rw [he] at hok; simp at hok
      | ok expl =>
        rw [he, exceptBind_ok] at hok
        cases ht : _title soup with
        | error e => rw [ht] at hok; simp at hok
        | ok ttl =>
          rw [ht, exceptBind_ok] at hok
          simp only [Except.ok.injEq] at hok
          subst hok
          exact mediaResolve_video soup mdh hm hvid

/-- Witness for `video_requires_frame` at the bare page. -/
theorem video_requires_frame_witness :
    envBare.pages 737429 = Except.ok soupBare
    ∧ soupBare.img = none ∧ soupBare.iframe = none
    ∧ _get_apod_chars envBare 737429 = Except.error PyErr.typeError :=
  ⟨rfl, rfl, rfl, (video_requires_frame envBare 737429 soupBare rfl).1 rfl rfl⟩

/-- The random-mode loop appends exactly one record per drawn ordinal, in
draw order, with no check on the record's date. -/
theorem randLoop_ok (env : Env) (uct : Bool) (h : Nat → Props) :
    ∀ drawn : List Nat,
      (∀ o ∈ drawn, _apod_handler env o uct (o == env.todayOrd) = Except.ok (h o)) →
      randLoop env uct drawn =
        Except.ok (drawn.map
          (fun o => { props := h o, service_version := SERVICE_VERSION })) := by
  intro drawn
  induction drawn with
  | nil => intro _; rfl
  | cons o rest ih =>
    intro hok
    simp only [randLoop, hok o (List.mem_cons_self o rest), exceptBind_ok,
      ih (fun o' ho' => hok o' (List.mem_cons_of_mem o ho')), List.map_cons]

/-- The range-mode loop appends one record per iterated ordinal in order,
keeping a record exactly when its date equals the iterated ordinal. -/
theorem rangeLoop_ok (env : Env) (uct : Bool) (h : Nat → Props) :
    ∀ days : List Nat,
      (∀ o ∈ days, _apod_handler env o uct (o == env.todayOrd) = Except.ok (h o)) →
      rangeLoop env uct days =
        Except.ok (days.filterMap (fun o =>
          if (h o).date = o
          then some { props := h o, service_version := SERVICE_VERSION }
          else none)) := by
  intro days
  induction days with
  | nil => intro _; rfl
  | cons o rest ih =>
    intro hok
    simp only [rangeLoop, hok o (List.mem_cons_self o rest), exceptBind_ok,
      ih (fun o' ho' => hok o' (List.mem_cons_of_mem o ho')), List.filterMap_cons]
    by_cases hd : (h o).date = o
    · simp [hd]
    · simp [hd]

/-- C4 counterexample: with count 2 (within 1..100) and the without-
replacement draw `[t0, t0-1]` from the valid window, the drawn day equal to
today falls back to the previous day, so the two returned records carry the
same date `t0 - 1`: the output dates are not pairwise distinct. -/
theorem random_distinct_dates_cex :
    ((1:Int) ≤ 2 ∧ (2:Int) ≤ 100)
    ∧ ([t0, t0 - 1] : List Nat).Nodup
    ∧ (∀ o ∈ [t0, t0 - 1], beginOrdinal ≤ o ∧ o ≤ envFb.todayOrd)
    ∧ (_get_json_for_random_dates envFb 2 false [t0, t0 - 1]).map
        (fun l => l.map (fun r => r.props.date)) = Except.ok [t0 - 1, t0 - 1]
    ∧ ¬ ([t0 - 1, t0 - 1] : List Nat).Nodup :=
  ⟨by decide, by decide, by decide, by decide, by decide⟩

/-- C4 (amended): with `1 ≤ n ≤ 100` and every drawn day's unit succeeding,
random-sample mode returns exactly one record per drawn day, in draw order;
the record dates are pairwise distinct provided every record's date equals
its drawn day (which the one-day fallback for a drawn day equal to today can
violate). -/
theorem random_sample_records (env : Env) (uct : Bool) (n : Int)
    (drawn : List Nat) (h : Nat → Props)
    (h1 : 1 ≤ n) (h2 : n ≤ 100)
    (hok : ∀ o ∈ drawn, _apod_handler env o uct (o == env.todayOrd) = Except.ok (h o)) :
    _get_json_for_random_dates env n uct drawn =
      Except.ok (drawn.map
        (fun o => { props := h o, service_version := SERVICE_VERSION }))
    ∧ (drawn.map
        (fun o => ({ props := h o, service_version := SERVICE_VERSION } : Rec))).length
        = drawn.length
    ∧ ((drawn.Nodup ∧ ∀ o ∈ drawn, (h o).date = o) →
        ((drawn.map
          (fun o => ({ props := h o, service_version := SERVICE_VERSION } : Rec))).map
            (fun r => r.props.date)).Nodup) := by
  refine ⟨?_, List.length_map drawn _, ?_⟩
  · unfold _get_json_for_random_dates
    rw [if_neg (by omega)]
    exact randLoop_ok env uct h drawn hok
  · rintro ⟨hnd, hdates⟩
    rw [List.map_map]
    have hcomp : ((fun r : Rec => r.props.date) ∘
        (fun o => ({ props := h o, service_version := SERVICE_VERSION } : Rec)))
        = fun o => (h o).date := rfl
    rw [hcomp, List.map_congr_left (fun o ho => hdates o ho)]
    simpa using hnd

/-- Witness for `random_sample_records`: two distinct non-today days in the
all-success environment give two records whose dates are the drawn days. -/
theorem random_sample_records_witness :
    _get_json_for_random_dates envOk 2 false [737429, 737430] =
      Except.ok [{ props := propsGood 737429, service_version := SERVICE_VERSION },
                 { props := propsGood 737430, service_version := SERVICE_VERSION }]
    ∧ ([737429, 737430] : List Nat).Nodup :=
  ⟨(random_sample_records envOk false 2 [737429, 737430] propsGood (by decide)
      (by decide) (by decide)).1, by decide⟩

/-- C9: random-sample mode appends exactly one record per drawn day with no
re-check of the record's date; concretely, when the drawn day equals today
and the one-day fallback fires, the emitted record carries the previous day's
date, so the output contains two records with the same date. -/
theorem random_output_can_repeat_dates :
    (∀ (env : Env) (uct : Bool) (n : Int) (drawn : List Nat) (h : Nat → Props),
      1 ≤ n → n ≤ 100 →
      (∀ o ∈ drawn, _apod_handler env o uct (o == env.todayOrd) = Except.ok (h o)) →
      _get_json_for_random_dates env n uct drawn =
        Except.ok (drawn.map
          (fun o => { props := h o, service_version := SERVICE_VERSION })))
    ∧ envFb.todayOrd = t0
    ∧ ([t0, t0 - 1] : List Nat).Nodup
    ∧ (_get_json_for_random_dates envFb 2 false [t0, t0 - 1]).map
        (fun l => l.map (fun r => r.props.date)) = Except.ok [t0 - 1, t0 - 1] := by
  refine ⟨?_, rfl, by decide, by decide⟩
  intro env uct n drawn h h1 h2 hok
  unfold _get_json_for_random_dates
  rw [if_neg (by omega)]
  exact randLoop_ok env uct h drawn hok

/-- Witness for the universally quantified part of
`random_output_can_repeat_dates`. -/
theorem random_output_can_repeat_dates_witness :
    _get_json_for_random_dates envOk 3 false [737430, 737429] =
      Except.ok [{ props := propsGood 737430, service_version := SERVICE_VERSION },
                 { props := propsGood 737429, service_version := SERVICE_VERSION }] :=
  random_output_can_repeat_dates.1 envOk false 3 [737430, 737429] propsGood
    (by decide) (by decide) (by decide)

/-- C3: for a valid parsed pair `start ≤ end` inside the window, with every
iterated day's unit succeeding, range mode iterates exactly the ordinals
`start..end` ascending (`List.range' s (e+1-s)`, which is strictly sorted)
and keeps a day's record exactly when the record's date equals the iterated
day. -/
theorem date_range_iteration (env : Env) (uct : Bool)
    (startS endS : String) (s e : Nat) (h : Nat → Props)
    (hs : strptimeOrd startS = Except.ok s)
    (he : strptimeOrd endS = Except.ok e)
    (hne : (endS == "") = false)
    (hsv : beginOrdinal ≤ s ∧ s ≤ env.todayOrd)
    (hev : beginOrdinal ≤ e ∧ e ≤ env.todayOrd)
    (hse : s ≤ e)
    (hok : ∀ o ∈ List.range' s (e + 1 - s),
      _apod_handler env o uct (o == env.todayOrd) = Except.ok (h o)) :
    _get_json_for_date_range env startS (some endS) uct =
      Except.ok ((List.range' s (e + 1 - s)).filterMap (fun o =>
        if (h o).date = o
        then some { props := h o, service_version := SERVICE_VERSION }
        else none))
    ∧ List.Pairwise (· < ·) (List.range' s (e + 1 - s)) := by
  have hv1 : _validate_date s env.todayOrd = Except.ok () := by
    unfold _validate_date
    rw [if_neg (by omega)]
  have hv2 : _validate_date e env.todayOrd = Except.ok () := by
    unfold _validate_date
    rw [if_neg (by omega)]
  have htr : pyTruthy (some endS) = true := by
    simp [pyTruthy, hne]
  refine ⟨?_, List.pairwise_lt_range' s (e + 1 - s)⟩
  simp only [_get_json_for_date_range, hs, exceptBind_ok, hv1, htr, if_true,
    Option.getD_some, he, hv2]
  rw [if_neg (by omega : ¬ s > e)]
  exact rangeLoop_ok env uct h (List.range' s (e + 1 - s)) hok

/-- Witness for `date_range_iteration`: the spec's instance 2020-01-05
through 2020-01-07 with all three days succeeding yields exactly three
records with those dates ascending. -/
theorem date_range_iteration_witness :
    _get_json_for_date_range envOk "2020-01-05" (some "2020-01-07") false =
      Except.ok [{ props := propsGood 737429, service_version := SERVICE_VERSION },
                 { props := propsGood 737430, service_version := SERVICE_VERSION },
                 { props := propsGood 737431, service_version := SERVICE_VERSION }]
    ∧ strptimeOrd "2020-01-05" = Except.ok 737429
    ∧ strptimeOrd "2020-01-07" = Except.ok 737431 := by
  have h := (date_range_iteration envOk false "2020-01-05" "2020-01-07"
    737429 737431 propsGood (by decide) (by decide) (by decide) (by decide)
    (by decide) (by decide) (by decide)).1
  rw [h]
  exact ⟨by decide, by decide, by decide⟩

/-- C1 (code bug): `_abort` never returns the documented
`{service_version, msg, code}` JSON object: its
`json.dumps(service_version=…, msg=…, code=…)` call raises `TypeError`
(`json.dumps` has no such signature, and a `str` result could not carry
`status_code` either), so every failing request — here the unknown-parameter
request `?foo=1` — ends in an unhandled `TypeError` instead of the
documented 400/500 JSON body. -/
theorem abort_always_raises :
    (∀ (code : Nat) (msg : String) (usage : Bool),
      _abort code msg usage = Except.error PyErr.typeError)
    ∧ apod envOk [("foo", "1")] = Except.error PyErr.typeError :=
  ⟨fun _ _ _ => rfl, by decide⟩

/-- C10: the parameter name `hd` is in the allow-list and the handler never
reads it: adding an `hd` parameter changes neither name validation, nor the
dispatched mode, nor the response value. -/
theorem hd_param_inert (env : Env) (args : List (String × String)) (v : String) :
    ("hd" ∈ ALLOWED_APOD_FIELDS)
    ∧ _validate (("hd", v) :: args) = _validate args
    ∧ dispatchMode (("hd", v) :: args) = dispatchMode args
    ∧ apod env (("hd", v) :: args) = apod env args := by
  have hval : _validate (("hd", v) :: args) = _validate args := by
    simp [_validate, ALLOWED_APOD_FIELDS]
  have hget : ∀ k : String, ("hd" == k) = false →
      pyGet (("hd", v) :: args) k = pyGet args k := by
    intro k hk
    unfold pyGet
    rw [List.find?_cons_of_neg]
    simp [hk]
  have h1 := hget "date" (by decide)
  have h2 := hget "count" (by decide)
  have h3 := hget "start_date" (by decide)
  have h4 := hget "end_date" (by decide)
  have h5 := hget "concept_tags" (by decide)
  refine ⟨by decide, hval, ?_, ?_⟩
  · unfold dispatchMode
    rw [hval, h1, h2, h3, h4, h5]
  · unfold apod apodTry
    rw [hval, h1, h2, h3, h4, h5]

theorem toList_mk (l : List Char) : (String.mk l).toList = l := rfl

theorem append_ne_nil_left {α : Type} (a b : List α) (h : a ≠ []) :
    a ++ b ≠ [] := by
  intro hx
  rcases List.append_eq_nil.mp hx with ⟨h1, _⟩
  exact h h1

theorem headNotIn_append (cs a l : List Char) (h : a ≠ []) :
    headNotIn cs (a ++ l) = headNotIn cs a := by
  unfold headNotIn
  rw [List.head?_append_of_ne_nil a h]

theorem lastNotIn_append (cs a l : List Char) (h : l ≠ []) :
    lastNotIn cs (a ++ l) = lastNotIn cs l := by
  unfold lastNotIn
  rw [List.getLast?_append_of_ne_nil a h]

theorem headNotIn_subset (cs cs' l : List Char) (hsub : ∀ c ∈ cs, c ∈ cs')
    (h : headNotIn cs' l = true) : headNotIn cs l = true := by
  unfold headNotIn at h ⊢
  cases hl : l.head? with
  | none => rfl
  | some c =>
    rw [hl] at h
    simp only [Bool.not_eq_true', decide_eq_false_iff_not] at h ⊢
    exact fun hc => h (hsub c hc)

theorem lastNotIn_subset (cs cs' l : List Char) (hsub : ∀ c ∈ cs, c ∈ cs')
    (h : lastNotIn cs' l = true) : lastNotIn cs l = true := by
  unfold lastNotIn at h ⊢
  cases hl : l.getLast? with
  | none => rfl
  | some c =>
    rw [hl] at h
    simp only [Bool.not_eq_true', decide_eq_false_iff_not] at h ⊢
    exact fun hc => h (hsub c hc)

/-- C5 counterexample: the source's `strip('Explanation: ')` strips the
*character set* of the label, not the literal prefix: for a body beginning
with characters from that set ("antelopes …"), the extracted explanation is
`"elopes run."`, not the claimed body `"antelopes run."`. -/
theorem explanation_label_strip_cex :
    soupAntelopes.paragraphs[2]? =
      some ("Explanation: " ++ "antelopes run." ++ " Tomorrow's picture" ++ ": more sky.")
    ∧ _explanation soupAntelopes = Except.ok "elopes run."
    ∧ ("elopes run." : String) ≠ "antelopes run." :=
  ⟨by decide, by decide, by decide⟩

/-- C5 (amended): when the third paragraph is the literal label
`"Explanation: "`, a body, the teaser `" Tomorrow's picture"` and a tail,
with no newline or doubled space anywhere, the teaser not occurring earlier,
and the body's first character and the paragraph's last character lying
*outside* the stripped character set of `'Explanation: '` (the body's last
character not being a space), extraction returns exactly the body — the
label removal is Python's character-set `strip`, which coincides with
removing the literal label exactly under these side conditions. -/
theorem explanation_extracts_body (soup : Soup) (body rest : List Char)
    (hpara : soup.paragraphs[2]? = some (String.mk
      ("Explanation: ".toList ++ (body ++ (" Tomorrow's picture".toList ++ rest)))))
    (hnl : isSubOfL "\n".toList
      ("Explanation: ".toList ++ (body ++ (" Tomorrow's picture".toList ++ rest))) = false)
    (hds : isSubOfL "  ".toList
      ("Explanation: ".toList ++ (body ++ (" Tomorrow's picture".toList ++ rest))) = false)
    (hbody : body ≠ [])
    (hh : headNotIn "Explanation: ".toList body = true)
    (hlb : lastNotIn [' '] body = true)
    (hend : lastNotIn "Explanation: ".toList
      (" Tomorrow's picture".toList ++ rest) = true)
    (hsplit : pySplitFirstL " Tomorrow's picture".toList
      (body ++ " Tomorrow's picture".toList) = body) :
    _explanation soup = Except.ok (String.mk body) := by
  have hPr : " Tomorrow's picture".toList ++ rest ≠ [] :=
    append_ne_nil_left _ rest (by decide)
  have hX : body ++ (" Tomorrow's picture".toList ++ rest) ≠ [] :=
    append_ne_nil_left _ _ hbody
  have l1 : pyReplaceL "\n".toList " ".toList
      ("Explanation: ".toList ++ (body ++ (" Tomorrow's picture".toList ++ rest)))
      = "Explanation: ".toList ++ (body ++ (" Tomorrow's picture".toList ++ rest)) :=
    pyReplaceL_of_not_sub _ _ _ hnl
  have l2 : pyReplaceL "  ".toList " ".toList
      ("Explanation: ".toList ++ (body ++ (" Tomorrow's picture".toList ++ rest)))
      = "Explanation: ".toList ++ (body ++ (" Tomorrow's picture".toList ++ rest)) :=
    pyReplaceL_of_not_sub _ _ _ hds
  have l3 : pyStripSetL " ".toList
      ("Explanation: ".toList ++ (body ++ (" Tomorrow's picture".toList ++ rest)))
      = "Explanation: ".toList ++ (body ++ (" Tomorrow's picture".toList ++ rest)) := by
    apply pyStripSetL_eq_self
    · rw [headNotIn_append " ".toList _ _ (by decide)]
      decide
    · rw [lastNotIn_append " ".toList _ _ hX, lastNotIn_append " ".toList _ _ hPr]
      exact lastNotIn_subset " ".toList "Explanation: ".toList _ (by decide) hend
  have l4 : pyStripSetL "Explanation: ".toList
      ("Explanation: ".toList ++ (body ++ (" Tomorrow's picture".toList ++ rest)))
      = body ++ (" Tomorrow's picture".toList ++ rest) := by
    apply pyStripSetL_strips_label
    · exact fun c hc => hc
    · rw [headNotIn_append _ _ _ hbody]
      exact hh
    · rw [lastNotIn_append _ _ _ hPr]
      exact hend
  have l5 : pySplitFirstL " Tomorrow's picture".toList
      (body ++ (" Tomorrow's picture".toList ++ rest)) = body :=
    pySplitFirstL_append _ (by decide) body rest hsplit
  have l6 : pyStripSetL " ".toList body = body := by
    apply pyStripSetL_eq_self
    · exact headNotIn_subset " ".toList "Explanation: ".toList body (by decide) hh
    · exact hlb
  have hne : String.mk body ≠ "" := by
    intro hx
    have h0 := congrArg String.data hx
    simp at h0
    exact hbody h0
  simp only [_explanation, hpara, exceptBind_ok, pyReplace, pyStripSet,
    pySplitFirst, toList_mk, l1, l2, l3, l4, l5, l6]
  rw [if_neg hne]

/-- Witness for `explanation_extracts_body` at the spec's own example
paragraph, yielding exactly the body `"A nice sky."`. -/
theorem explanation_extracts_body_witness :
    _explanation soupGood = Except.ok (String.mk "A nice sky.".toList) :=
  explanation_extracts_body soupGood "A nice sky.".toList ": more sky.".toList
    (by decide) (by decide) (by decide) (by decide) (by decide) (by decide)
    (by decide) (by decide)
